import Mathlib

/-!
# Verification of the Infinite-Canvas parallax core

Shallow embedding, over `ℚ`, of the camera/physics simulation and the
pointer interaction state machine of `src/Flattened/InfiniteCanvas.tsx`
(the consolidated, most feature-complete variant of the repository: the
one with focus-seeking attraction, cursor-anchored zoom and
wrap-nearest-replica focusing), together with the tile-offset generator
of `src/config/parallax.ts`.

JavaScript numbers are modelled as rational numbers; the JavaScript `%`
operator (a truncating remainder, taking the sign of the dividend) is
modelled by `jsRem` below.
-/

namespace InfiniteCanvas

/-! ## Constants (from the ticker and handlers in `useParallax`) -/

def PERSPECTIVE : ℚ := 1000

def MIN_CAMERA_Z : ℚ := -4000

def MAX_CAMERA_Z : ℚ := 750

def LERP_FACTOR_FOCUS : ℚ := 8/100

def LERP_FACTOR_FREE : ℚ := 1/10

def PAN_DAMPING_FACTOR : ℚ := 90/100

def ZOOM_DAMPING_FACTOR : ℚ := 88/100

def ZOOM_SPEED_MULTIPLIER : ℚ := 5

def ANTICIPATION_AMOUNT : ℚ := 30

/-- `gsap.utils.clamp(lo, hi, v)`: `v` limited to the interval `[lo, hi]`. -/
def clampQ (lo hi v : ℚ) : ℚ := min hi (max lo v)

/-! ## Geometry / tiling utilities -/

/-- Truncation toward zero, the rounding used by the JavaScript `%` operator. -/
def jsTrunc (q : ℚ) : ℤ := if 0 ≤ q then ⌊q⌋ else ⌈q⌉

/-- The JavaScript remainder `a % b`: `a - b * trunc(a / b)` (sign of the dividend). -/
def jsRem (a b : ℚ) : ℚ := a - b * (jsTrunc (a / b))

/-- `wrap(value, max) = ((((value + max / 2) % max) + max) % max) - max / 2`
from the ticker in `useParallax` (`src/Flattened/InfiniteCanvas.tsx` line 790,
`src/hooks/useParallax.ts` lines 94-98). -/
def wrap (value m : ℚ) : ℚ := jsRem (jsRem (value + m / 2) m + m) m - m / 2

/-- `generateTileOffsets(size)` from `src/config/parallax.ts` lines 72-84:
`half = Math.floor(size / 2)`, then the nested loops
`for (y = -half; y <= half; y++) for (x = -half; x <= half; x++) push({x, y})`,
encoded with `y` ranging over `List.range (2 * half + 1)` shifted by `-half`
(outer loop), and likewise `x` (inner loop). -/
def generateTileOffsets (size : ℕ) : List (ℤ × ℤ) :=
  (List.range (2 * (size / 2) + 1)).flatMap fun (y : ℕ) =>
    (List.range (2 * (size / 2) + 1)).map fun (x : ℕ) =>
      ((x : ℤ) - ((size / 2 : ℕ) : ℤ), (y : ℤ) - ((size / 2 : ℕ) : ℤ))

/-! ## Camera / pan / zoom physics (`useParallax` in `src/Flattened/InfiniteCanvas.tsx`) -/

/-- The mutable refs of the simulation: pan position, pan velocity, camera
depth, target camera depth, zoom velocity. -/
structure SimState where
  panX : ℚ
  panY : ℚ
  panVelX : ℚ
  panVelY : ℚ
  cameraZ : ℚ
  targetCameraZ : ℚ
  zoomVelocity : ℚ

/-- The `onZoom` handler (lines 666-701). The reference layer `(speed, baseZ)`
is `config.layers[refLayerIndex]` (the focused card's layer, else layer 1);
it is passed in here, together with the viewport size and the wheel event's
`deltaY` and cursor position. -/
def onZoom (s : SimState) (speed baseZ viewportW viewportH deltaY mouseX mouseY : ℚ) :
    SimState :=
  let oldTargetZ := s.targetCameraZ
  let newTargetZ := oldTargetZ + (if 0 < deltaY then -ANTICIPATION_AMOUNT else ANTICIPATION_AMOUNT)
  let zOld := baseZ + oldTargetZ
  let zNew := baseZ + newTargetZ
  if PERSPECTIVE - zOld = 0 ∨ PERSPECTIVE - zNew = 0 then s
  else
    let scaleChange := (PERSPECTIVE - zOld) / (PERSPECTIVE - zNew)
    let dx := mouseX - viewportW / 2
    let dy := mouseY - viewportH / 2
    let screenShiftX := dx * (scaleChange - 1)
    let screenShiftY := dy * (scaleChange - 1)
    let newScale := PERSPECTIVE / (PERSPECTIVE - zNew)
    if speed = 0 ∨ newScale = 0 then s
    else
      { s with
        panVelX := s.panVelX + (-screenShiftX / (speed * newScale))
        panVelY := s.panVelY + (-screenShiftY / (speed * newScale))
        targetCameraZ := newTargetZ
        zoomVelocity := s.zoomVelocity - deltaY * ZOOM_SPEED_MULTIPLIER }

/-- The free-motion part of the `gsap.ticker` callback (lines 716-724):
zoom integration (`targetCameraZ += zoomVelocity`, clamp, damping, lerp of
`cameraZ` toward the clamped target) followed by pan integration. -/
def tickFree (s : SimState) : SimState :=
  let target2 := clampQ MIN_CAMERA_Z MAX_CAMERA_Z (s.targetCameraZ + s.zoomVelocity)
  { panX := s.panX + s.panVelX
    panY := s.panY + s.panVelY
    panVelX := s.panVelX * PAN_DAMPING_FACTOR
    panVelY := s.panVelY * PAN_DAMPING_FACTOR
    cameraZ := s.cameraZ + (target2 - s.cameraZ) * LERP_FACTOR_FREE
    targetCameraZ := target2
    zoomVelocity := s.zoomVelocity * ZOOM_DAMPING_FACTOR }

/-- The inputs the focus-attraction branch (lines 728-782) reads for the
focused card: its layer's `(speed, baseZ)`, the world and viewport sizes,
the card's authored position and scale, the responsive layout factor, the
committed dragged delta, the card element's unscaled size, and the focused
tile instance's offset. -/
structure FocusParams where
  speed : ℚ
  baseZ : ℚ
  worldW : ℚ
  worldH : ℚ
  viewportW : ℚ
  viewportH : ℚ
  cardPosX : ℚ
  cardPosY : ℚ
  layoutScale : ℚ
  draggedDeltaX : ℚ
  draggedDeltaY : ℚ
  cardUnscaledW : ℚ
  cardUnscaledH : ℚ
  cardScale : ℚ
  tileOffX : ℚ
  tileOffY : ℚ

/-- `panPeriodX = layerConfig.speed > 0 ? worldSize / speed : 0` (line 770). -/
def panPeriod (extent speed : ℚ) : ℚ := if 0 < speed then extent / speed else 0

/-- The nearest-replica pan target (lines 772-777):
`wrap = period > 0 ? Math.round((panPosition - cardTargetPan) / period) : 0`,
`closestTargetPan = cardTargetPan + wrap * period`.  JavaScript's
`Math.round` (round half toward positive infinity) is Mathlib's `round`. -/
def nearestReplicaTarget (panPos target period : ℚ) : ℚ :=
  target + (if 0 < period then ((round ((panPos - target) / period) : ℤ) : ℚ) else 0) * period

/-- `cardTargetPanX` (lines 737-758): the pan value that centers the focused
card's tile replica in the viewport, divided by the layer speed. -/
def cardTargetPanX (fp : FocusParams) : ℚ :=
  (fp.viewportW / 2 -
      ((fp.worldW / 2 + fp.cardPosX * fp.layoutScale + fp.draggedDeltaX) +
        fp.cardUnscaledW / 2 + fp.tileOffX * fp.worldW)) / fp.speed

/-- `cardTargetPanY`, the vertical analogue of `cardTargetPanX`. -/
def cardTargetPanY (fp : FocusParams) : ℚ :=
  (fp.viewportH / 2 -
      ((fp.worldH / 2 + fp.cardPosY * fp.layoutScale + fp.draggedDeltaY) +
        fp.cardUnscaledH / 2 + fp.tileOffY * fp.worldH)) / fp.speed

/-- `cardTargetZ` (lines 760-768): the clamped camera depth that gives the
focused card its required on-screen scale. -/
def cardTargetZ (fp : FocusParams) : ℚ :=
  let cardActualW := fp.cardUnscaledW * fp.cardScale
  let cardActualH := fp.cardUnscaledH * fp.cardScale
  let targetPerceivedSize := min fp.viewportW fp.viewportH * (8/10)
  let requiredScale := targetPerceivedSize / max cardActualW cardActualH
  clampQ MIN_CAMERA_Z MAX_CAMERA_Z (PERSPECTIVE - PERSPECTIVE / requiredScale - fp.baseZ)

/-- The focus-attraction branch of the ticker (lines 728-782): lerp the pan
position toward the nearest-replica pan target and `cameraZ` toward the
clamped `cardTargetZ`, each by `LERP_FACTOR_FOCUS`. -/
def focusAttract (s : SimState) (fp : FocusParams) : SimState :=
  { s with
    panX := s.panX +
      (nearestReplicaTarget s.panX (cardTargetPanX fp) (panPeriod fp.worldW fp.speed) - s.panX) *
        LERP_FACTOR_FOCUS
    panY := s.panY +
      (nearestReplicaTarget s.panY (cardTargetPanY fp) (panPeriod fp.worldH fp.speed) - s.panY) *
        LERP_FACTOR_FOCUS
    cameraZ := s.cameraZ + (cardTargetZ fp - s.cameraZ) * LERP_FACTOR_FOCUS }

/-- One full scheduler tick: the free-motion integration always runs, then the
focus attraction runs when a card is focused. -/
def tick (s : SimState) (focus : Option FocusParams) : SimState :=
  match focus with
  | none => tickFree s
  | some fp => focusAttract (tickFree s) fp

/-- An input event of the camera simulation: a ctrl/cmd-wheel zoom intent, or
one scheduler tick (with the focused card's parameters when one is focused). -/
inductive CanvasEvent where
  | zoomIntent (speed baseZ viewportW viewportH deltaY mouseX mouseY : ℚ)
  | frame (focus : Option FocusParams)

def stepEvent (s : SimState) : CanvasEvent → SimState
  | .zoomIntent speed baseZ vw vh dY mx my => onZoom s speed baseZ vw vh dY mx my
  | .frame focus => tick s focus

/-- Run the simulation over a sequence of zoom impulses and ticks. -/
def runEvents (s : SimState) (evs : List CanvasEvent) : SimState := evs.foldl stepEvent s

/-- The initial values of the simulation refs (lines 487-491): pan position
`(0, 0)`, zero velocities, `cameraZ = targetCameraZ = 0`. -/
def initialSimState : SimState := ⟨0, 0, 0, 0, 0, 0, 0⟩

/-! ## Card drag / focus interaction state machine (lines 470-594) -/

inductive InteractionMode where
  | IDLE
  | PANNING
  | DRAGGING_CARD
deriving DecidableEq

/-- An `{x, y}` pair of JavaScript numbers. -/
structure Vec2 where
  x : ℚ
  y : ℚ

/-- The `InteractionState` record (lines 472-479). -/
structure InteractionState where
  mode : InteractionMode
  cardId : Option String
  tileIndex : Option Nat
  pointerStart : Vec2
  dragStartDelta : Vec2
  liveDelta : Vec2

/-- The focused-card state `{ id, tileIndex }` (lines 510-511). -/
structure FocusState where
  id : Option String
  tileIndex : Option Nat

/-- The mutable state read and written by the pointer handlers: the
interaction state, the focus state, the per-card committed dragged deltas
(a map keyed by card id; `none` = never dragged), and the bookkeeping ids. -/
structure CanvasUIState where
  interaction : InteractionState
  focused : FocusState
  draggedCardDeltas : String → Option Vec2
  activeDragCardId : Option String
  lastDraggedCardId : Option String

/-- `setFocusedCard(id, tileIndex = null)` (lines 513-517). -/
def setFocusedCard (u : CanvasUIState) (id : Option String) (tileIndex : Option Nat) :
    CanvasUIState :=
  { u with focused := ⟨id, tileIndex⟩ }

/-- `getEffectiveScale` (lines 519-523): `PERSPECTIVE / (PERSPECTIVE - safeZ)`
with `safeZ = Math.min(cameraZ, PERSPECTIVE - 1)`. -/
def getEffectiveScale (cameraZ : ℚ) : ℚ :=
  PERSPECTIVE / (PERSPECTIVE - min cameraZ (PERSPECTIVE - 1))

/-- `handlePointerMove` (lines 525-534): while dragging a card, the live delta
is the screen-space displacement since pointer-down divided by the current
effective camera scale. -/
def handlePointerMove (u : CanvasUIState) (cameraZ clientX clientY : ℚ) : CanvasUIState :=
  if u.interaction.mode ≠ InteractionMode.DRAGGING_CARD then u
  else
    { u with interaction := { u.interaction with
        liveDelta := ⟨(clientX - u.interaction.pointerStart.x) / getEffectiveScale cameraZ,
                      (clientY - u.interaction.pointerStart.y) / getEffectiveScale cameraZ⟩ } }

def clickDistanceSq (d : Vec2) : ℚ := d.x ^ 2 + d.y ^ 2

/-- The click classification of `handlePointerUp` (lines 541-542):
`Math.hypot(liveDelta.x, liveDelta.y) < 5`, stated squared over `ℚ`
(for nonnegative radicands, `hypot(x, y) < 5` iff `x² + y² < 5²`;
see the bridging conjunct of the C3 theorem). -/
def isClick (d : Vec2) : Prop := clickDistanceSq d < 5 ^ 2

instance (d : Vec2) : Decidable (isClick d) := by
  unfold isClick
  infer_instance

/-- `handlePointerUp` (lines 536-569): resolve click vs drag, toggle or clear
focus, commit the drag delta, and reset the interaction state to IDLE. -/
def handlePointerUp (u : CanvasUIState) : CanvasUIState :=
  if u.interaction.mode ≠ InteractionMode.DRAGGING_CARD then u
  else
    let st := u.interaction
    let u1 :=
      match st.cardId with
      | none => u
      | some c =>
        let u0 := { u with lastDraggedCardId := some c }
        match st.tileIndex with
        | none => u0
        | some i =>
          if isClick st.liveDelta then
            match u0.focused.id with
            | none => setFocusedCard u0 (some c) (some i)
            | some _ => setFocusedCard u0 none none
          else
            let newDeltas : String → Option Vec2 := fun c2 =>
              if c2 = c then
                some ⟨st.dragStartDelta.x + st.liveDelta.x, st.dragStartDelta.y + st.liveDelta.y⟩
              else u0.draggedCardDeltas c2
            let u2 := { u0 with draggedCardDeltas := newDeltas }
            setFocusedCard u2 none none
    { u1 with
      interaction := { u1.interaction with
        mode := InteractionMode.IDLE
        cardId := none
        tileIndex := none
        liveDelta := ⟨0, 0⟩ }
      activeDragCardId := none }

/-- `handlePointerDown` (lines 571-587): enter DRAGGING_CARD for the pressed
card instance, remembering the pointer start and the previously committed
dragged delta (`draggedCardDeltas[card.id] || { x: 0, y: 0 }`). -/
def handlePointerDown (u : CanvasUIState) (cardId : String) (tileIndex : Nat)
    (clientX clientY : ℚ) : CanvasUIState :=
  { u with
    interaction :=
      { mode := InteractionMode.DRAGGING_CARD
        cardId := some cardId
        tileIndex := some tileIndex
        pointerStart := ⟨clientX, clientY⟩
        dragStartDelta := (u.draggedCardDeltas cardId).getD ⟨0, 0⟩
        liveDelta := ⟨0, 0⟩ }
    activeDragCardId := some cardId }

/-- A pointer-down at the origin followed immediately by pointer-up (no
movement, so the live delta stays `(0, 0)` and the gesture resolves as a
click). -/
def clickGesture (u : CanvasUIState) (cardId : String) (tileIndex : Nat) : CanvasUIState :=
  handlePointerUp (handlePointerDown u cardId tileIndex 0 0)

/-- A pointer-down at the origin, a pointer-move to `(dx, dy)` at
`cameraZ = 0` (unit effective scale), then pointer-up. -/
def dragGesture (u : CanvasUIState) (cardId : String) (tileIndex : Nat) (dx dy : ℚ) :
    CanvasUIState :=
  handlePointerUp (handlePointerMove (handlePointerDown u cardId tileIndex 0 0) 0 dx dy)

/-- The initial interaction/focus state (lines 497-511): IDLE, nothing
focused, no committed dragged deltas. -/
def initialUIState : CanvasUIState :=
  { interaction := ⟨InteractionMode.IDLE, none, none, ⟨0, 0⟩, ⟨0, 0⟩, ⟨0, 0⟩⟩
    focused := ⟨none, none⟩
    draggedCardDeltas := fun _ => none
    activeDragCardId := none
    lastDraggedCardId := none }

/-! ## Lemmas about the geometry utilities -/

lemma jsTrunc_bounds (q : ℚ) : q - 1 < (jsTrunc q : ℚ) ∧ (jsTrunc q : ℚ) < q + 1 := by
  unfold jsTrunc
  split
  · constructor
    · exact_mod_cast Int.sub_one_lt_floor q
    · calc ((⌊q⌋ : ℤ) : ℚ) ≤ q := Int.floor_le q
        _ < q + 1 := by linarith
  · constructor
    · calc q - 1 < q := by linarith
        _ ≤ ((⌈q⌉ : ℤ) : ℚ) := Int.le_ceil q
    · exact_mod_cast Int.ceil_lt_add_one q

lemma jsTrunc_of_nonneg {q : ℚ} (h : 0 ≤ q) : jsTrunc q = ⌊q⌋ := if_pos h

/-- The composite `((x % r) + r) % r` used by `wrap` computes the true
(floor-based) modulo `r * Int.fract (x / r)` whenever `r > 0`. -/
lemma jsRem_add_jsRem (x r : ℚ) (hr : 0 < r) :
    jsRem (jsRem x r + r) r = r * Int.fract (x / r) := by
  have hrne : r ≠ 0 := ne_of_gt hr
  set T : ℤ := jsTrunc (x / r) with hT
  have hrem : jsRem x r = r * (x / r - (T : ℚ)) := by
    unfold jsRem
    rw [← hT]
    field_simp
  set t : ℚ := x / r - (T : ℚ) with ht
  have htb : -1 < t ∧ t < 1 := by
    have := jsTrunc_bounds (x / r)
    rw [← hT] at this
    constructor <;> [skip; skip] <;> simp only [ht] <;> linarith [this.1, this.2]
  have hu : jsRem x r + r = r * (t + 1) := by rw [hrem]; ring
  have hdiv : (r * (t + 1)) / r = t + 1 := by field_simp
  have hpos : (0 : ℚ) ≤ t + 1 := by linarith [htb.1]
  have hstep : jsRem (jsRem x r + r) r = r * (t + 1) - r * (⌊t + 1⌋ : ℚ) := by
    rw [hu]
    unfold jsRem
    rw [hdiv, jsTrunc_of_nonneg hpos]
  have hfract : r * (t + 1) - r * ((⌊t + 1⌋ : ℤ) : ℚ) = r * Int.fract (t + 1) := by
    rw [Int.fract]
    ring
  rw [hstep, hfract]
  have h1 : Int.fract (t + 1) = Int.fract t := Int.fract_add_one t
  have h2 : Int.fract t = Int.fract (x / r) := by
    rw [ht, Int.fract_sub_int]
  rw [h1, h2]

lemma wrap_eq_fract (v r : ℚ) (hr : 0 < r) :
    wrap v r = r * Int.fract ((v + r / 2) / r) - r / 2 := by
  unfold wrap
  rw [jsRem_add_jsRem _ _ hr]

/-- C2: `wrap` is periodic with period `r` (exactly, over `ℚ`) and always lands
in the half-open interval `[-r/2, r/2)`, for every `r > 0`, including for
negative inputs (true modulo, not truncating remainder). -/
theorem wrap_periodic_range_C2 (v r : ℚ) (k : ℤ) (hr : 0 < r) :
    wrap (v + (k : ℚ) * r) r = wrap v r ∧
    -(r / 2) ≤ wrap v r ∧ wrap v r < r / 2 := by
  have hrne : r ≠ 0 := ne_of_gt hr
  refine ⟨?_, ?_, ?_⟩
  · rw [wrap_eq_fract _ _ hr, wrap_eq_fract _ _ hr]
    have harg : (v + (k : ℚ) * r + r / 2) / r = (v + r / 2) / r + (k : ℚ) := by
      field_simp
      ring
    rw [harg, Int.fract_add_int]
  · rw [wrap_eq_fract _ _ hr]
    have h0 : 0 ≤ Int.fract ((v + r / 2) / r) := Int.fract_nonneg _
    nlinarith
  · rw [wrap_eq_fract _ _ hr]
    have h1 : Int.fract ((v + r / 2) / r) < 1 := Int.fract_lt_one _
    have h0 : 0 ≤ Int.fract ((v + r / 2) / r) := Int.fract_nonneg _
    nlinarith

theorem wrap_periodic_range_C2_witness :
    wrap (-13 + ((2 : ℤ) : ℚ) * 10) 10 = wrap (-13) 10 ∧
    -((10 : ℚ) / 2) ≤ wrap (-13) 10 ∧ wrap (-13) 10 < (10 : ℚ) / 2 :=
  wrap_periodic_range_C2 (-13) 10 2 (by norm_num)

/-! ## Lemmas about `generateTileOffsets` -/

/-- Flattening a nested row-major double loop to a single index:
element `k` of the concatenation has row `k / n` and column `k % n`. -/
lemma range_flatMap_map {α : Type} (m n : ℕ) (f : ℕ → ℕ → α) :
    (List.range m).flatMap (fun j => (List.range n).map (f j)) =
      (List.range (m * n)).map (fun k => f (k / n) (k % n)) := by
  induction m with
  | zero => simp
  | succ m ih =>
    rw [List.range_succ, List.flatMap_append, ih, Nat.succ_mul, List.range_add,
      List.map_append, List.map_map]
    congr 1
    simp only [List.flatMap_cons, List.flatMap_nil, List.append_nil]
    refine List.map_congr_left ?_
    intro i hi
    rw [List.mem_range] at hi
    have hn : 0 < n := by omega
    have hdiv : (m * n + i) / n = m := by
      rw [Nat.add_comm, Nat.add_mul_div_right i m hn, Nat.div_eq_of_lt hi, Nat.zero_add]
    have hmod : (m * n + i) % n = i := by
      rw [Nat.add_comm, Nat.add_mul_mod_self_right, Nat.mod_eq_of_lt hi]
    rw [Function.comp_apply, hdiv, hmod]

/-- `generateTileOffsets` as a single row-major indexed list. -/
lemma generateTileOffsets_eq_map (size : ℕ) :
    generateTileOffsets size =
      (List.range ((2 * (size / 2) + 1) * (2 * (size / 2) + 1))).map
        (fun k => (((k % (2 * (size / 2) + 1) : ℕ) : ℤ) - (size / 2 : ℕ),
                   ((k / (2 * (size / 2) + 1) : ℕ) : ℤ) - (size / 2 : ℕ))) := by
  unfold generateTileOffsets
  rw [range_flatMap_map]

lemma length_generateTileOffsets (size : ℕ) :
    (generateTileOffsets size).length = (2 * (size / 2) + 1) * (2 * (size / 2) + 1) := by
  rw [generateTileOffsets_eq_map, List.length_map, List.length_range]

lemma mem_generateTileOffsets (size : ℕ) (p : ℤ × ℤ) :
    p ∈ generateTileOffsets size ↔
      -((size / 2 : ℕ) : ℤ) ≤ p.1 ∧ p.1 ≤ ((size / 2 : ℕ) : ℤ) ∧
      -((size / 2 : ℕ) : ℤ) ≤ p.2 ∧ p.2 ≤ ((size / 2 : ℕ) : ℤ) := by
  obtain ⟨a, b⟩ := p
  unfold generateTileOffsets
  simp only [List.mem_flatMap, List.mem_map, List.mem_range, Prod.mk.injEq]
  constructor
  · rintro ⟨j, hj, i, hi, rfl, rfl⟩
    refine ⟨?_, ?_, ?_, ?_⟩ <;> omega
  · rintro ⟨h1, h2, h3, h4⟩
    refine ⟨(b + (size / 2 : ℕ)).toNat, by omega, (a + (size / 2 : ℕ)).toNat, by omega, ?_, ?_⟩
      <;> omega

lemma nodup_generateTileOffsets (size : ℕ) : (generateTileOffsets size).Nodup := by
  rw [generateTileOffsets_eq_map]
  refine List.Nodup.map ?_ (List.nodup_range _)
  intro a b hab
  set R : ℕ := 2 * (size / 2) + 1 with hR
  have h1 : ((a % R : ℕ) : ℤ) - (size / 2 : ℕ) = ((b % R : ℕ) : ℤ) - (size / 2 : ℕ) :=
    congrArg Prod.fst hab
  have h2 : ((a / R : ℕ) : ℤ) - (size / 2 : ℕ) = ((b / R : ℕ) : ℤ) - (size / 2 : ℕ) :=
    congrArg Prod.snd hab
  have hmod : a % R = b % R := by omega
  have hdiv : a / R = b / R := by omega
  calc a = R * (a / R) + a % R := (Nat.div_add_mod a R).symm
    _ = R * (b / R) + b % R := by rw [hmod, hdiv]
    _ = b := Nat.div_add_mod b R

/-- The componentwise boolean equality on integer pairs agrees with the one
derived from decidable equality (needed to line up `List.count` instances). -/
lemma beq_ext_aux {α : Type} : ∀ {i1 i2 : BEq α}, i1.beq = i2.beq → i1 = i2
  | ⟨_⟩, ⟨_⟩, h => congrArg BEq.mk h

lemma beq_prod_eq_decEq : (instBEqProd : BEq (ℤ × ℤ)) = instBEqOfDecidableEq := by
  apply beq_ext_aux
  funext p q
  obtain ⟨a, b⟩ := p
  obtain ⟨c, d⟩ := q
  show (a == c && b == d) = decide ((a, b) = (c, d))
  by_cases h1 : a = c <;> by_cases h2 : b = d <;> simp [h1, h2]

/-- Original C8 claim is false at the even grid size 2: the code produces
`(2 * ⌊2 / 2⌋ + 1)² = 9` offsets, not `2² = 4`. -/
theorem tileOffsets_C8_counterexample : ¬ ((generateTileOffsets 2).length = 2 * 2) := by
  decide

/-- C8 (amended to odd grid sizes): for every odd positive `gridSize = 2n + 1`,
`generateTileOffsets` produces exactly `gridSize²` integer pairs, its members
are exactly the pairs spanning `-n..n` in both axes, and the list is the
row-major enumeration (the `x` coordinate is the fast axis). -/
theorem tileOffsets_grid_C8 (n : ℕ) :
    (generateTileOffsets (2 * n + 1)).length = (2 * n + 1) ^ 2 ∧
    (∀ p : ℤ × ℤ, p ∈ generateTileOffsets (2 * n + 1) ↔
      -(n : ℤ) ≤ p.1 ∧ p.1 ≤ (n : ℤ) ∧ -(n : ℤ) ≤ p.2 ∧ p.2 ≤ (n : ℤ)) ∧
    generateTileOffsets (2 * n + 1) =
      (List.range ((2 * n + 1) * (2 * n + 1))).map
        (fun k => (((k % (2 * n + 1) : ℕ) : ℤ) - n, ((k / (2 * n + 1) : ℕ) : ℤ) - n)) := by
  have hhalf : (2 * n + 1) / 2 = n := by omega
  refine ⟨?_, ?_, ?_⟩
  · rw [length_generateTileOffsets, hhalf]
    ring
  · intro p
    rw [mem_generateTileOffsets, hhalf]
  · rw [generateTileOffsets_eq_map, hhalf]

/-! ## Camera depth clamp invariant (C1) -/

lemma clampQ_mem {lo hi : ℚ} (v : ℚ) (h : lo ≤ hi) :
    lo ≤ clampQ lo hi v ∧ clampQ lo hi v ≤ hi := by
  unfold clampQ
  exact ⟨le_min h (le_max_left lo v), min_le_left hi _⟩

lemma lerp_mem (lo hi z t f : ℚ) (hz1 : lo ≤ z) (hz2 : z ≤ hi) (ht1 : lo ≤ t) (ht2 : t ≤ hi)
    (hf0 : 0 ≤ f) (hf1 : f ≤ 1) :
    lo ≤ z + (t - z) * f ∧ z + (t - z) * f ≤ hi := by
  constructor <;>
    nlinarith [mul_nonneg (sub_nonneg.mpr hz1) (sub_nonneg.mpr hf1),
      mul_nonneg (sub_nonneg.mpr ht1) hf0,
      mul_nonneg (sub_nonneg.mpr hz2) (sub_nonneg.mpr hf1),
      mul_nonneg (sub_nonneg.mpr ht2) hf0]

lemma min_le_max_cameraZ : MIN_CAMERA_Z ≤ MAX_CAMERA_Z := by
  norm_num [MIN_CAMERA_Z, MAX_CAMERA_Z]

lemma tickFree_targetCameraZ_mem (s : SimState) :
    MIN_CAMERA_Z ≤ (tickFree s).targetCameraZ ∧ (tickFree s).targetCameraZ ≤ MAX_CAMERA_Z := by
  unfold tickFree
  exact clampQ_mem _ min_le_max_cameraZ

lemma tickFree_cameraZ_mem {s : SimState}
    (h1 : MIN_CAMERA_Z ≤ s.cameraZ) (h2 : s.cameraZ ≤ MAX_CAMERA_Z) :
    MIN_CAMERA_Z ≤ (tickFree s).cameraZ ∧ (tickFree s).cameraZ ≤ MAX_CAMERA_Z := by
  have ht := clampQ_mem (s.targetCameraZ + s.zoomVelocity) min_le_max_cameraZ
  have hl := lerp_mem MIN_CAMERA_Z MAX_CAMERA_Z s.cameraZ
    (clampQ MIN_CAMERA_Z MAX_CAMERA_Z (s.targetCameraZ + s.zoomVelocity)) LERP_FACTOR_FREE
    h1 h2 ht.1 ht.2 (by norm_num [LERP_FACTOR_FREE]) (by norm_num [LERP_FACTOR_FREE])
  exact hl

lemma cardTargetZ_mem (fp : FocusParams) :
    MIN_CAMERA_Z ≤ cardTargetZ fp ∧ cardTargetZ fp ≤ MAX_CAMERA_Z := by
  unfold cardTargetZ
  exact clampQ_mem _ min_le_max_cameraZ

lemma tick_cameraZ_mem {s : SimState} (focus : Option FocusParams)
    (h1 : MIN_CAMERA_Z ≤ s.cameraZ) (h2 : s.cameraZ ≤ MAX_CAMERA_Z) :
    MIN_CAMERA_Z ≤ (tick s focus).cameraZ ∧ (tick s focus).cameraZ ≤ MAX_CAMERA_Z := by
  cases focus with
  | none => exact tickFree_cameraZ_mem h1 h2
  | some fp =>
    have hfree := tickFree_cameraZ_mem h1 h2
    have hct := cardTargetZ_mem fp
    exact lerp_mem MIN_CAMERA_Z MAX_CAMERA_Z (tickFree s).cameraZ (cardTargetZ fp)
      LERP_FACTOR_FOCUS hfree.1 hfree.2 hct.1 hct.2
      (by norm_num [LERP_FACTOR_FOCUS]) (by norm_num [LERP_FACTOR_FOCUS])

lemma onZoom_cameraZ (s : SimState) (speed baseZ vw vh dY mx my : ℚ) :
    (onZoom s speed baseZ vw vh dY mx my).cameraZ = s.cameraZ := by
  simp only [onZoom]
  split_ifs <;> rfl

lemma runEvents_cameraZ_mem {s : SimState} (evs : List CanvasEvent)
    (h1 : MIN_CAMERA_Z ≤ s.cameraZ) (h2 : s.cameraZ ≤ MAX_CAMERA_Z) :
    MIN_CAMERA_Z ≤ (runEvents s evs).cameraZ ∧ (runEvents s evs).cameraZ ≤ MAX_CAMERA_Z := by
  induction evs generalizing s with
  | nil => exact ⟨h1, h2⟩
  | cons e rest ih =>
    cases e with
    | zoomIntent sp bz vw vh dY mx my =>
      have hz := onZoom_cameraZ s sp bz vw vh dY mx my
      show MIN_CAMERA_Z ≤ (runEvents (onZoom s sp bz vw vh dY mx my) rest).cameraZ ∧
        (runEvents (onZoom s sp bz vw vh dY mx my) rest).cameraZ ≤ MAX_CAMERA_Z
      exact ih (by rw [hz]; exact h1) (by rw [hz]; exact h2)
    | frame focus =>
      have ht := tick_cameraZ_mem focus h1 h2
      show MIN_CAMERA_Z ≤ (runEvents (tick s focus) rest).cameraZ ∧
        (runEvents (tick s focus) rest).cameraZ ≤ MAX_CAMERA_Z
      exact ih ht.1 ht.2

/-- C1: the zoom-integration step of every tick leaves the target camera depth
in `[MIN_CAMERA_Z, MAX_CAMERA_Z] = [-4000, 750]`; for every sequence of zoom
impulses and ticks (free motion lerping toward the clamped target, focus
attraction lerping toward the clamped `cardTargetZ`), a `cameraZ` that starts
in `[-4000, 750]` stays there; and `MAX_CAMERA_Z = 750 < PERSPECTIVE = 1000`,
so the perspective denominator `PERSPECTIVE - cameraZ` stays positive. -/
theorem camera_depth_invariant_C1 (s : SimState) (evs : List CanvasEvent)
    (focus : Option FocusParams)
    (h : MIN_CAMERA_Z ≤ s.cameraZ ∧ s.cameraZ ≤ MAX_CAMERA_Z) :
    (MIN_CAMERA_Z ≤ (tick s focus).targetCameraZ ∧
      (tick s focus).targetCameraZ ≤ MAX_CAMERA_Z) ∧
    (MIN_CAMERA_Z ≤ (runEvents s evs).cameraZ ∧
      (runEvents s evs).cameraZ ≤ MAX_CAMERA_Z) ∧
    MAX_CAMERA_Z < PERSPECTIVE ∧
    0 < PERSPECTIVE - (runEvents s evs).cameraZ := by
  have hrun := runEvents_cameraZ_mem evs h.1 h.2
  have hlt : MAX_CAMERA_Z < PERSPECTIVE := by norm_num [MAX_CAMERA_Z, PERSPECTIVE]
  refine ⟨?_, hrun, hlt, by linarith [hrun.2]⟩
  cases focus with
  | none => exact tickFree_targetCameraZ_mem s
  | some fp => exact tickFree_targetCameraZ_mem s

theorem camera_depth_invariant_C1_witness :
    (MIN_CAMERA_Z ≤ (tick initialSimState none).targetCameraZ ∧
      (tick initialSimState none).targetCameraZ ≤ MAX_CAMERA_Z) ∧
    (MIN_CAMERA_Z ≤ (runEvents initialSimState []).cameraZ ∧
      (runEvents initialSimState []).cameraZ ≤ MAX_CAMERA_Z) ∧
    MAX_CAMERA_Z < PERSPECTIVE ∧
    0 < PERSPECTIVE - (runEvents initialSimState []).cameraZ :=
  camera_depth_invariant_C1 initialSimState [] none
    (by norm_num [initialSimState, MIN_CAMERA_Z, MAX_CAMERA_Z])

/-! ## Nearest-replica focus target (C6) -/

/-- C6: whenever the focused card's layer speed and the world extent are
positive, the pan target actually lerped toward under focus attraction is the
nominal card-centering target shifted by `round((panPosition - target) /
panPeriod)` whole periods, which is the replica nearest the current pan
position: it is within half a pan period of it. -/
theorem focus_nearest_replica_C6 (speed extent panPos target : ℚ)
    (hs : 0 < speed) (hw : 0 < extent) :
    |nearestReplicaTarget panPos target (panPeriod extent speed) - panPos| ≤
      panPeriod extent speed / 2 ∧
    nearestReplicaTarget panPos target (panPeriod extent speed) =
      target + ((round ((panPos - target) / panPeriod extent speed) : ℤ) : ℚ) *
        panPeriod extent speed ∧
    (∀ (s : SimState) (fp : FocusParams),
      (focusAttract s fp).panX = s.panX +
        (nearestReplicaTarget s.panX (cardTargetPanX fp) (panPeriod fp.worldW fp.speed) -
          s.panX) * LERP_FACTOR_FOCUS) := by
  have hp : 0 < panPeriod extent speed := by
    unfold panPeriod
    rw [if_pos hs]
    exact div_pos hw hs
  refine ⟨?_, ?_, fun s fp => rfl⟩
  · set P := panPeriod extent speed with hP
    unfold nearestReplicaTarget
    rw [if_pos hp]
    set r : ℤ := round ((panPos - target) / P) with hr
    have hPne : P ≠ 0 := ne_of_gt hp
    have h1 : target + (r : ℚ) * P - panPos = -((panPos - target) - (r : ℚ) * P) := by ring
    rw [h1, abs_neg]
    have h2 : (panPos - target) - (r : ℚ) * P = P * ((panPos - target) / P - (r : ℚ)) := by
      field_simp
      ring
    rw [h2, abs_mul, abs_of_pos hp]
    have h3 : |(panPos - target) / P - ((r : ℤ) : ℚ)| ≤ 1 / 2 := by
      rw [hr]
      exact abs_sub_round ((panPos - target) / P)
    nlinarith [abs_nonneg ((panPos - target) / P - ((r : ℤ) : ℚ))]
  · unfold nearestReplicaTarget
    rw [if_pos hp]

theorem focus_nearest_replica_C6_witness :
    |nearestReplicaTarget 0 9000 (panPeriod 4000 1) - 0| ≤ panPeriod 4000 1 / 2 ∧
    nearestReplicaTarget 0 9000 (panPeriod 4000 1) =
      9000 + ((round (((0 : ℚ) - 9000) / panPeriod 4000 1) : ℤ) : ℚ) * panPeriod 4000 1 ∧
    (∀ (s : SimState) (fp : FocusParams),
      (focusAttract s fp).panX = s.panX +
        (nearestReplicaTarget s.panX (cardTargetPanX fp) (panPeriod fp.worldW fp.speed) -
          s.panX) * LERP_FACTOR_FOCUS) :=
  focus_nearest_replica_C6 1 4000 0 9000 (by norm_num) (by norm_num)

/-! ## Degenerate zoom intents are no-ops (C7) -/

/-- C7: if the cursor-anchored zoom compensation hits a degenerate case — the
reference layer's speed is `0`, or one of the perspective denominators
`PERSPECTIVE - Z_old` / `PERSPECTIVE - Z_new` is `0`, or the new effective
scale is `0` — then `onZoom` returns the state completely unchanged. -/
theorem zoom_degenerate_noop_C7 (s : SimState) (speed baseZ vw vh dY mx my : ℚ)
    (h : speed = 0 ∨
      PERSPECTIVE - (baseZ + s.targetCameraZ) = 0 ∨
      PERSPECTIVE - (baseZ + (s.targetCameraZ +
        (if 0 < dY then -ANTICIPATION_AMOUNT else ANTICIPATION_AMOUNT))) = 0 ∨
      PERSPECTIVE / (PERSPECTIVE - (baseZ + (s.targetCameraZ +
        (if 0 < dY then -ANTICIPATION_AMOUNT else ANTICIPATION_AMOUNT)))) = 0) :
    onZoom s speed baseZ vw vh dY mx my = s := by
  simp only [onZoom]
  split_ifs at h ⊢ <;> first | rfl | tauto

theorem zoom_degenerate_noop_C7_witness :
    onZoom initialSimState 0 0 800 600 1 400 300 = initialSimState :=
  zoom_degenerate_noop_C7 initialSimState 0 0 800 600 1 400 300 (Or.inl rfl)

theorem tileOffsets_grid_C8_witness :
    (generateTileOffsets 5).length = 5 ^ 2 ∧
    (∀ p : ℤ × ℤ, p ∈ generateTileOffsets 5 ↔
      -((2 : ℕ) : ℤ) ≤ p.1 ∧ p.1 ≤ ((2 : ℕ) : ℤ) ∧
        -((2 : ℕ) : ℤ) ≤ p.2 ∧ p.2 ≤ ((2 : ℕ) : ℤ)) ∧
    generateTileOffsets 5 =
      (List.range (5 * 5)).map
        (fun k => (((k % 5 : ℕ) : ℤ) - (2 : ℕ), ((k / 5 : ℕ) : ℤ) - (2 : ℕ))) :=
  tileOffsets_grid_C8 2

/-- C9: for every odd positive `gridSize = 2n + 1`, the generated offsets are
pairwise distinct, `gridSize²` many (`25` for gridSize `5`), contain `(0, 0)`
exactly once, and are symmetric under negation. -/
theorem tileOffsets_odd_props_C9 (n : ℕ) :
    (generateTileOffsets (2 * n + 1)).Nodup ∧
    (generateTileOffsets (2 * n + 1)).length = (2 * n + 1) ^ 2 ∧
    (generateTileOffsets 5).length = 25 ∧
    (generateTileOffsets (2 * n + 1)).count ((0 : ℤ), (0 : ℤ)) = 1 ∧
    (∀ p : ℤ × ℤ, p ∈ generateTileOffsets (2 * n + 1) →
      (-p.1, -p.2) ∈ generateTileOffsets (2 * n + 1)) := by
  have hhalf : (2 * n + 1) / 2 = n := by omega
  refine ⟨nodup_generateTileOffsets _, ?_, ?_, ?_, ?_⟩
  · rw [length_generateTileOffsets, hhalf]
    ring
  · rw [length_generateTileOffsets]
  · rw [beq_prod_eq_decEq]
    refine List.count_eq_one_of_mem (nodup_generateTileOffsets _) ?_
    rw [mem_generateTileOffsets, hhalf]
    refine ⟨?_, ?_, ?_, ?_⟩ <;> omega
  · intro p hp
    rw [mem_generateTileOffsets, hhalf] at hp ⊢
    obtain ⟨h1, h2, h3, h4⟩ := hp
    refine ⟨?_, ?_, ?_, ?_⟩ <;> simp <;> omega

theorem tileOffsets_odd_props_C9_witness :
    (generateTileOffsets 5).Nodup ∧
    (generateTileOffsets 5).length = 5 ^ 2 ∧
    (generateTileOffsets 5).length = 25 ∧
    (generateTileOffsets 5).count ((0 : ℤ), (0 : ℤ)) = 1 ∧
    (∀ p : ℤ × ℤ, p ∈ generateTileOffsets 5 → (-p.1, -p.2) ∈ generateTileOffsets 5) :=
  tileOffsets_odd_props_C9 2

/-! ## Click-vs-drag classification (C3) -/

/-- C3: a pointer-up on a card classifies as a click iff the live delta —
screen displacement since pointer-down divided by the current effective
camera scale — has magnitude strictly below 5; the squared comparison agrees
with the `Math.hypot` one, and concretely 2px at unit scale is a click while
50px is a drag. -/
theorem click_classification_C3 (u : CanvasUIState) (cameraZ clientX clientY : ℚ)
    (hmode : u.interaction.mode = InteractionMode.DRAGGING_CARD) :
    (isClick (handlePointerMove u cameraZ clientX clientY).interaction.liveDelta ↔
      ((clientX - u.interaction.pointerStart.x) / getEffectiveScale cameraZ) ^ 2 +
        ((clientY - u.interaction.pointerStart.y) / getEffectiveScale cameraZ) ^ 2 < 5 ^ 2) ∧
    (∀ d : Vec2, isClick d ↔ Real.sqrt ((d.x : ℝ) ^ 2 + (d.y : ℝ) ^ 2) < 5) ∧
    isClick (handlePointerMove (handlePointerDown initialUIState "c1" 0 0 0)
      0 2 0).interaction.liveDelta ∧
    ¬ isClick (handlePointerMove (handlePointerDown initialUIState "c1" 0 0 0)
      0 50 0).interaction.liveDelta := by
  refine ⟨?_, ?_, ?_, ?_⟩
  · simp [handlePointerMove, hmode, isClick, clickDistanceSq]
  · intro d
    rw [Real.sqrt_lt' (by norm_num : (0 : ℝ) < 5)]
    simp only [isClick, clickDistanceSq]
    constructor <;> intro h <;> exact_mod_cast h
  · norm_num [handlePointerMove, handlePointerDown, initialUIState, isClick, clickDistanceSq,
      getEffectiveScale, PERSPECTIVE, min_def]
  · norm_num [handlePointerMove, handlePointerDown, initialUIState, isClick, clickDistanceSq,
      getEffectiveScale, PERSPECTIVE, min_def]

theorem click_classification_C3_witness :
    (isClick (handlePointerMove (handlePointerDown initialUIState "c1" 0 0 0)
        0 2 0).interaction.liveDelta ↔
      ((2 - (handlePointerDown initialUIState "c1" 0 0 0).interaction.pointerStart.x) /
          getEffectiveScale 0) ^ 2 +
        ((0 - (handlePointerDown initialUIState "c1" 0 0 0).interaction.pointerStart.y) /
          getEffectiveScale 0) ^ 2 < 5 ^ 2) ∧
    (∀ d : Vec2, isClick d ↔ Real.sqrt ((d.x : ℝ) ^ 2 + (d.y : ℝ) ^ 2) < 5) ∧
    isClick (handlePointerMove (handlePointerDown initialUIState "c1" 0 0 0)
      0 2 0).interaction.liveDelta ∧
    ¬ isClick (handlePointerMove (handlePointerDown initialUIState "c1" 0 0 0)
      0 50 0).interaction.liveDelta :=
  click_classification_C3 (handlePointerDown initialUIState "c1" 0 0 0) 0 2 0 rfl

/-! ## Focus toggling on click (C4) -/

/-- C4: a pointer-up resolved as a click on a card instance sets the focus to
that `(card id, tile index)` when nothing is focused, and clears the focus
when anything (same or different card) is focused; hence focusing A then
clicking A again, or focusing A then clicking any B, leaves nothing
focused. -/
theorem focus_toggle_C4 (u : CanvasUIState) (c : String) (i : Nat)
    (hmode : u.interaction.mode = InteractionMode.DRAGGING_CARD)
    (hc : u.interaction.cardId = some c)
    (hi : u.interaction.tileIndex = some i)
    (hclick : isClick u.interaction.liveDelta) :
    (u.focused.id = none → (handlePointerUp u).focused = ⟨some c, some i⟩) ∧
    (∀ f : String, u.focused.id = some f → (handlePointerUp u).focused = ⟨none, none⟩) ∧
    (∀ (v : CanvasUIState) (a b : String) (ia ib : Nat), v.focused.id = none →
      (clickGesture (clickGesture v a ia) b ib).focused = ⟨none, none⟩) := by
  refine ⟨?_, ?_, ?_⟩
  · intro hf
    simp [handlePointerUp, hmode, hc, hi, hclick, hf, setFocusedCard]
  · intro f hf
    simp [handlePointerUp, hmode, hc, hi, hclick, hf, setFocusedCard]
  · intro v a b ia ib hv
    have h1 : (clickGesture v a ia).focused = ⟨some a, some ia⟩ := by
      norm_num [clickGesture, handlePointerUp, handlePointerDown, hv, isClick,
        clickDistanceSq, setFocusedCard]
    have hid : (clickGesture v a ia).focused.id = some a := by rw [h1]
    norm_num [clickGesture, handlePointerUp, handlePointerDown, hid, hv, isClick,
      clickDistanceSq, setFocusedCard]

theorem focus_toggle_C4_witness :
    ((handlePointerDown initialUIState "A" 0 0 0).focused.id = none →
      (handlePointerUp (handlePointerDown initialUIState "A" 0 0 0)).focused =
        ⟨some "A", some 0⟩) ∧
    (∀ f : String, (handlePointerDown initialUIState "A" 0 0 0).focused.id = some f →
      (handlePointerUp (handlePointerDown initialUIState "A" 0 0 0)).focused = ⟨none, none⟩) ∧
    (∀ (v : CanvasUIState) (a b : String) (ia ib : Nat), v.focused.id = none →
      (clickGesture (clickGesture v a ia) b ib).focused = ⟨none, none⟩) :=
  focus_toggle_C4 (handlePointerDown initialUIState "A" 0 0 0) "A" 0 rfl rfl rfl
    (by norm_num [handlePointerDown, initialUIState, isClick, clickDistanceSq])

/-! ## Drag commit accumulates (C5) -/

/-- C5: a pointer-up resolved as a drag of card `c` commits
`dragStartDelta + liveDelta` as `c`'s persistent dragged delta and clears the
focus; since pointer-down captured the previously committed delta (or `(0,0)`
if never dragged) as `dragStartDelta`, successive drags accumulate:
`(10,10)` then `(5,-5)` leaves `(15,5)`. -/
theorem drag_commit_C5 (u : CanvasUIState) (c : String) (i : Nat)
    (hmode : u.interaction.mode = InteractionMode.DRAGGING_CARD)
    (hc : u.interaction.cardId = some c)
    (hi : u.interaction.tileIndex = some i)
    (hdrag : ¬ isClick u.interaction.liveDelta) :
    ((handlePointerUp u).draggedCardDeltas c =
      some ⟨u.interaction.dragStartDelta.x + u.interaction.liveDelta.x,
            u.interaction.dragStartDelta.y + u.interaction.liveDelta.y⟩) ∧
    (handlePointerUp u).focused = ⟨none, none⟩ ∧
    (∀ (v : CanvasUIState) (a : String) (ia ib : Nat), v.draggedCardDeltas a = none →
      (dragGesture (dragGesture v a ia 10 10) a ib 5 (-5)).draggedCardDeltas a =
        some ⟨15, 5⟩) := by
  refine ⟨?_, ?_, ?_⟩
  · simp [handlePointerUp, hmode, hc, hi, hdrag, setFocusedCard]
  · simp [handlePointerUp, hmode, hc, hi, hdrag, setFocusedCard]
  · intro v a ia ib hv
    have h1 : (dragGesture v a ia 10 10).draggedCardDeltas a = some ⟨10, 10⟩ := by
      norm_num [dragGesture, handlePointerDown, handlePointerMove, handlePointerUp, hv,
        getEffectiveScale, PERSPECTIVE, min_def, isClick, clickDistanceSq, setFocusedCard]
    norm_num [dragGesture, handlePointerDown, handlePointerMove, handlePointerUp, h1, hv,
      getEffectiveScale, PERSPECTIVE, min_def, isClick, clickDistanceSq, setFocusedCard]

theorem drag_commit_C5_witness :
    ((handlePointerUp (handlePointerMove (handlePointerDown initialUIState "A" 0 0 0)
        0 10 10)).draggedCardDeltas "A" =
      some ⟨(handlePointerMove (handlePointerDown initialUIState "A" 0 0 0)
              0 10 10).interaction.dragStartDelta.x +
            (handlePointerMove (handlePointerDown initialUIState "A" 0 0 0)
              0 10 10).interaction.liveDelta.x,
            (handlePointerMove (handlePointerDown initialUIState "A" 0 0 0)
              0 10 10).interaction.dragStartDelta.y +
            (handlePointerMove (handlePointerDown initialUIState "A" 0 0 0)
              0 10 10).interaction.liveDelta.y⟩) ∧
    (handlePointerUp (handlePointerMove (handlePointerDown initialUIState "A" 0 0 0)
      0 10 10)).focused = ⟨none, none⟩ ∧
    (∀ (v : CanvasUIState) (a : String) (ia ib : Nat), v.draggedCardDeltas a = none →
      (dragGesture (dragGesture v a ia 10 10) a ib 5 (-5)).draggedCardDeltas a =
        some ⟨15, 5⟩) :=
  drag_commit_C5 (handlePointerMove (handlePointerDown initialUIState "A" 0 0 0) 0 10 10)
    "A" 0 rfl rfl rfl
    (by norm_num [handlePointerMove, handlePointerDown, initialUIState, isClick,
      clickDistanceSq, getEffectiveScale, PERSPECTIVE, min_def])

/-! ## Frame effects of pointer-up (C10) -/

/-- C10: every pointer-up that ends a card interaction resets the interaction
state to IDLE with no card, no tile index, and a zero live delta; a click
leaves the committed dragged-delta map entirely unchanged, while a drag of
card `c` changes only `c`'s entry. -/
theorem pointerUp_effects_C10 (u : CanvasUIState)
    (hmode : u.interaction.mode = InteractionMode.DRAGGING_CARD) :
    (isClick u.interaction.liveDelta →
      (handlePointerUp u).draggedCardDeltas = u.draggedCardDeltas) ∧
    (∀ (c : String) (i : Nat), ¬ isClick u.interaction.liveDelta →
      u.interaction.cardId = some c → u.interaction.tileIndex = some i →
      ((handlePointerUp u).draggedCardDeltas c =
        some ⟨u.interaction.dragStartDelta.x + u.interaction.liveDelta.x,
              u.interaction.dragStartDelta.y + u.interaction.liveDelta.y⟩ ∧
        ∀ c2 : String, c2 ≠ c →
          (handlePointerUp u).draggedCardDeltas c2 = u.draggedCardDeltas c2)) ∧
    (handlePointerUp u).interaction.mode = InteractionMode.IDLE ∧
    (handlePointerUp u).interaction.cardId = none ∧
    (handlePointerUp u).interaction.tileIndex = none ∧
    (handlePointerUp u).interaction.liveDelta = ⟨0, 0⟩ := by
  refine ⟨?_, ?_, ?_, ?_, ?_, ?_⟩
  · intro hclick
    rcases hcard : u.interaction.cardId with _ | c
    · simp [handlePointerUp, hmode, hcard]
    · rcases htile : u.interaction.tileIndex with _ | i
      · simp [handlePointerUp, hmode, hcard, htile]
      · rcases hfoc : u.focused.id with _ | f <;>
          simp [handlePointerUp, hmode, hcard, htile, hclick, hfoc, setFocusedCard]
  · intro c i hdrag hc hi
    constructor
    · simp [handlePointerUp, hmode, hc, hi, hdrag, setFocusedCard]
    · intro c2 hne
      simp [handlePointerUp, hmode, hc, hi, hdrag, setFocusedCard, hne]
  · rcases hcard : u.interaction.cardId with _ | c
    · simp [handlePointerUp, hmode, hcard]
    · rcases htile : u.interaction.tileIndex with _ | i
      · simp [handlePointerUp, hmode, hcard, htile]
      · by_cases hclick : isClick u.interaction.liveDelta
        · rcases hfoc : u.focused.id with _ | f <;>
            simp [handlePointerUp, hmode, hcard, htile, hclick, hfoc, setFocusedCard]
        · simp [handlePointerUp, hmode, hcard, htile, hclick, setFocusedCard]
  · rcases hcard : u.interaction.cardId with _ | c
    · simp [handlePointerUp, hmode, hcard]
    · rcases htile : u.interaction.tileIndex with _ | i
      · simp [handlePointerUp, hmode, hcard, htile]
      · by_cases hclick : isClick u.interaction.liveDelta
        · rcases hfoc : u.focused.id with _ | f <;>
            simp [handlePointerUp, hmode, hcard, htile, hclick, hfoc, setFocusedCard]
        · simp [handlePointerUp, hmode, hcard, htile, hclick, setFocusedCard]
  · rcases hcard : u.interaction.cardId with _ | c
    · simp [handlePointerUp, hmode, hcard]
    · rcases htile : u.interaction.tileIndex with _ | i
      · simp [handlePointerUp, hmode, hcard, htile]
      · by_cases hclick : isClick u.interaction.liveDelta
        · rcases hfoc : u.focused.id with _ | f <;>
            simp [handlePointerUp, hmode, hcard, htile, hclick, hfoc, setFocusedCard]
        · simp [handlePointerUp, hmode, hcard, htile, hclick, setFocusedCard]
  · rcases hcard : u.interaction.cardId with _ | c
    · simp [handlePointerUp, hmode, hcard]
    · rcases htile : u.interaction.tileIndex with _ | i
      · simp [handlePointerUp, hmode, hcard, htile]
      · by_cases hclick : isClick u.interaction.liveDelta
        · rcases hfoc : u.focused.id with _ | f <;>
            simp [handlePointerUp, hmode, hcard, htile, hclick, hfoc, setFocusedCard]
        · simp [handlePointerUp, hmode, hcard, htile, hclick, setFocusedCard]

theorem pointerUp_effects_C10_witness :
    (isClick (handlePointerDown initialUIState "A" 0 0 0).interaction.liveDelta →
      (handlePointerUp (handlePointerDown initialUIState "A" 0 0 0)).draggedCardDeltas =
        (handlePointerDown initialUIState "A" 0 0 0).draggedCardDeltas) ∧
    (∀ (c : String) (i : Nat),
      ¬ isClick (handlePointerDown initialUIState "A" 0 0 0).interaction.liveDelta →
      (handlePointerDown initialUIState "A" 0 0 0).interaction.cardId = some c →
      (handlePointerDown initialUIState "A" 0 0 0).interaction.tileIndex = some i →
      ((handlePointerUp (handlePointerDown initialUIState "A" 0 0 0)).draggedCardDeltas c =
        some ⟨(handlePointerDown initialUIState "A" 0 0 0).interaction.dragStartDelta.x +
                (handlePointerDown initialUIState "A" 0 0 0).interaction.liveDelta.x,
              (handlePointerDown initialUIState "A" 0 0 0).interaction.dragStartDelta.y +
                (handlePointerDown initialUIState "A" 0 0 0).interaction.liveDelta.y⟩ ∧
        ∀ c2 : String, c2 ≠ c →
          (handlePointerUp (handlePointerDown initialUIState "A" 0 0 0)).draggedCardDeltas c2 =
            (handlePointerDown initialUIState "A" 0 0 0).draggedCardDeltas c2)) ∧
    (handlePointerUp (handlePointerDown initialUIState "A" 0 0 0)).interaction.mode =
      InteractionMode.IDLE ∧
    (handlePointerUp (handlePointerDown initialUIState "A" 0 0 0)).interaction.cardId = none ∧
    (handlePointerUp (handlePointerDown initialUIState "A" 0 0 0)).interaction.tileIndex =
      none ∧
    (handlePointerUp (handlePointerDown initialUIState "A" 0 0 0)).interaction.liveDelta =
      ⟨0, 0⟩ :=
  pointerUp_effects_C10 (handlePointerDown initialUIState "A" 0 0 0) rfl

end InfiniteCanvas
